import Mathlib

/-!
Shallow embedding of the live-transcription core of the
`tuon-live-transcribe-obsidian` plugin, together with proofs of the
specification's claims about it.

The embedded code comes from:
* `src/transcribe/liveTranscribeService.ts` — the `LiveTranscribeService`
  controller (`start`, `stop`, `handleAaiEvent`, `insertFinal`, `cleanup`,
  and the module-level `advanceCursor`);
* `src/audio/micPcm16Capture.ts` — the AudioWorklet processor generated by
  `buildAudioWorkletProcessorCode` (sample accumulation and PCM16
  conversion) and the capture teardown;
* `src/audio/wavUtils.ts` — the PCM16 sample conversion inside
  `encodeWavFromMono`.

Strings are Lean `String`s; audio samples are `ℚ` (the JavaScript numbers
appearing in the claims — 1.5, −1.5, 0.0 — and the scale factors are all
exactly representable, and the clamp/scale/truncate arithmetic is exact on
them); machine `Int16` conversion is modelled by truncation toward zero as
performed by `Int16Array` element assignment / `DataView.setInt16`.
Callback invocations (`onRunningChange`, `onStatusText`, `Notice`,
`unsubscribe`, `terminate`, mic `stop`) are recorded as an explicit output
list, in invocation order.
-/

/-- Strip whitespace from both ends of a character list (JavaScript
`String.prototype.trim`). -/
def trimChars (l : List Char) : List Char :=
  ((l.dropWhile Char.isWhitespace).reverse.dropWhile Char.isWhitespace).reverse

/-- JavaScript `s.trim()`. -/
def jsTrim (s : String) : String := String.mk (trimChars s.data)

/-- JavaScript `s.toLowerCase()` (the error messages the controller tests
are ASCII, where `Char.toLower` agrees with it). -/
def jsToLower (s : String) : String := String.mk (s.data.map Char.toLower)

/-- `listStartsWith sub l` : does `l` start with `sub`?  (Helper for the
JavaScript `String.prototype.includes` used in `handleAaiEvent`.) -/
def listStartsWith : List Char → List Char → Bool
  | [], _ => true
  | _ :: _, [] => false
  | a :: as, b :: bs => a == b && listStartsWith as bs

/-- `listContainsSub sub l` : does `sub` occur contiguously inside `l`? -/
def listContainsSub (sub : List Char) : List Char → Bool
  | [] => sub.isEmpty
  | c :: cs => listStartsWith sub (c :: cs) || listContainsSub sub cs

/-- JavaScript `s.includes(sub)` (substring containment), as used in
`handleAaiEvent`'s error branch. -/
def strIncludes (s sub : String) : Bool :=
  listContainsSub sub.toList s.toList

/-- Split a character list at newline characters; always returns at least
one (possibly empty) segment, like JavaScript `str.split("\n")`. -/
def splitLinesChars : List Char → List (List Char)
  | [] => [[]]
  | c :: cs =>
    match splitLinesChars cs with
    | [] => [[c]]
    | h :: t => if c = '\n' then [] :: h :: t else (c :: h) :: t

/-- JavaScript `text.split("\n")` as used by `advanceCursor`. -/
def splitNl (s : String) : List String :=
  (splitLinesChars s.data).map (fun l => String.mk l)

/-- An editor position, Obsidian's `{ line, ch }`. -/
structure EdPos where
  line : Nat
  ch : Nat
deriving DecidableEq, Repr

/-- The active editor: its document as a list of lines plus its cursor.
(Models the Obsidian `Editor` surface the controller touches:
`getCursor`, `replaceRange`, `setCursor`.) -/
structure EditorSt where
  lines : List String
  cursor : EdPos
deriving DecidableEq, Repr

/-- `advanceCursor` from `liveTranscribeService.ts`: where the cursor lands
after inserting `text` at `cursor`. -/
def advanceCursor (cursor : EdPos) (text : String) : EdPos :=
  let lines := splitNl text
  if lines.length = 1 then
    { line := cursor.line, ch := cursor.ch + (lines.headD "").length }
  else
    { line := cursor.line + (lines.length - 1), ch := (lines.getLastD "").length }

/-- Obsidian `editor.replaceRange(text, cursor)` with a collapsed range:
insert `text` at position `pos` of the document. -/
def replaceRange (doc : List String) (pos : EdPos) (text : String) : List String :=
  let lineStr := doc.getD pos.line ""
  let newSeg := String.mk (lineStr.data.take pos.ch) ++ text ++ String.mk (lineStr.data.drop pos.ch)
  doc.take pos.line ++ splitNl newSeg ++ doc.drop (pos.line + 1)

/-- `LiveTranscribeService.insertFinal`: with no active editor, or a text
that trims to empty, the document is untouched; otherwise insert
`prefixSpace ++ text.trim ++ " "` at the cursor and advance the cursor. -/
def insertFinal (ed : Option EditorSt) (text : String) : Option EditorSt :=
  match ed with
  | none => none
  | some e =>
    let out := jsTrim text
    if out = "" then some e
    else
      let cursor := e.cursor
      let pre := if cursor.ch = 0 then "" else " "
      let insertion := pre ++ out ++ " "
      some { lines := replaceRange e.lines cursor insertion,
             cursor := advanceCursor cursor insertion }

/-- The `AssemblyAiTranscriptEvent` variants the controller reacts to. -/
inductive AaiEvent where
  | transcriptUpdate (text : String) (is_final : Bool)
  | sessionBegin
  | sessionTerminated
  | error (message : String)
deriving DecidableEq

/-- `LiveTranscribeService` instance state: the transcript buffer
(`finalized`, `current`), the `running` flag, and presence of the three
transient resources (`mic`, `aai`, `unsubAai`). -/
structure Ctrl where
  finalized : String
  current : String
  running : Bool
  mic : Bool
  aai : Bool
  unsubAai : Bool
deriving DecidableEq, Repr

/-- Observable effects of the controller, in invocation order. -/
inductive Out where
  | runningChange (running : Bool)
  | statusText (text : String)
  | notice (text : String)
  | unsubscribe
  | terminateConn
  | micStop
deriving DecidableEq, Repr

/-- `LiveTranscribeService.cleanup`: release subscription, client and mic
(each guarded, so absent resources are skipped), then blank the status. -/
def cleanup (s : Ctrl) : Ctrl × List Out :=
  ({ s with unsubAai := false, aai := false, mic := false },
    (if s.unsubAai then [Out.unsubscribe] else []) ++
    (if s.aai then [Out.terminateConn] else []) ++
    (if s.mic then [Out.micStop] else []) ++
    [Out.statusText ""])

/-- `LiveTranscribeService.stop`: a no-op unless running; otherwise clear
the running flag, report it, and run `cleanup`. -/
def stop (s : Ctrl) : Ctrl × List Out :=
  if s.running then
    let r := cleanup { s with running := false }
    (r.1, [Out.runningChange false, Out.statusText "Stopping…"] ++ r.2 ++
      [Out.notice "Live transcription stopped."])
  else (s, [])

/-- `LiveTranscribeService.handleAaiEvent`.  `ed` is the editor active at
the moment the event arrives (`getActiveEditor()`); the second component
of the result is that editor after any document insertion. -/
def handleAaiEvent (s : Ctrl) (ed : Option EditorSt) (ev : AaiEvent) :
    Ctrl × Option EditorSt × List Out :=
  match ev with
  | .transcriptUpdate text is_final =>
    if is_final then
      let s1 := { s with finalized := s.finalized ++ jsTrim text ++ " ", current := "" }
      let ed1 := insertFinal ed text
      let preview := jsTrim (s1.finalized ++ s1.current)
      (s1, ed1, [Out.statusText (if preview = "" then "Listening…" else preview)])
    else
      let s1 := { s with current := text }
      let preview := jsTrim (s1.finalized ++ s1.current)
      (s1, ed, [Out.statusText (if preview = "" then "Listening…" else preview)])
  | .error message =>
    let reported := [Out.statusText "Transcription error.",
                     Out.notice ("Transcription error: " ++ message)]
    if strIncludes (jsToLower message) "not authorized" then
      let r := stop s
      (r.1, ed, reported ++ r.2)
    else (s, ed, reported)
  | .sessionBegin => (s, ed, [])
  | .sessionTerminated => (s, ed, [])

/-- `LiveTranscribeService.start`.  The two awaited external effects are
parameters: `connectErr` is `some msg` when `aai.connect()` rejects with
`msg`, and `micErr` is `some msg` when `startMicPcm16Capture` rejects. -/
def start (s : Ctrl) (apiKey : String) (connectErr micErr : Option String) :
    Ctrl × List Out :=
  if s.running then (s, [])
  else if jsTrim apiKey = "" then
    (s, [Out.notice "Missing AssemblyAI API key. Set it in plugin settings."])
  else
    let s1 : Ctrl :=
      { s with
        finalized := ""
        current := ""
        running := true
        aai := true
        unsubAai := true }
    let outs1 := [Out.runningChange true, Out.statusText "Starting transcription…"]
    match connectErr with
    | some msg =>
      let r := cleanup { s1 with running := false }
      (r.1, outs1 ++ [Out.statusText "Failed to connect.",
        Out.notice ("AssemblyAI connect failed: " ++ msg)] ++ r.2)
    | none =>
      match micErr with
      | some msg =>
        let r := stop s1
        (r.1, outs1 ++ [Out.notice ("Microphone failed: " ++ msg)] ++ r.2)
      | none =>
        ({ s1 with mic := true },
          outs1 ++ [Out.statusText "Listening…", Out.notice "Live transcription started."])

/-! ### Audio capture: the generated AudioWorklet processor and WAV encoding -/

/-- `DEFAULT_CHUNK_SIZE_SAMPLES` from `micPcm16Capture.ts` (800 samples at
16 kHz, i.e. 50 ms). -/
def DEFAULT_CHUNK_SIZE_SAMPLES : Nat := 800

/-- JavaScript `Math.max(-1, Math.min(1, s))`, the clamp applied in both
the worklet processor and `encodeWavFromMono`. -/
def clampSample (x : ℚ) : ℚ := max (-1) (min 1 x)

/-- Conversion of a JavaScript number to a machine integer as performed by
`Int16Array` element assignment and `DataView.setInt16`: truncation toward
zero (no wrapping occurs for the clamped values the code produces). -/
def jsTruncInt (q : ℚ) : Int := if q < 0 then -(⌊-q⌋) else ⌊q⌋

/-- One sample through the worklet's conversion
`s = Math.max(-1, Math.min(1, buf[j])); out[j] = s < 0 ? s * 0x8000 : s * 0x7fff`
(from `buildAudioWorkletProcessorCode` in `micPcm16Capture.ts`). -/
def pcm16OfSample (x : ℚ) : Int :=
  let s := clampSample x
  jsTruncInt (if s < 0 then s * 32768 else s * 32767)

/-- The per-sample conversion inside `encodeWavFromMono` (`wavUtils.ts`):
`s = Math.max(-1, Math.min(1, samples[i] ?? 0)); val = s < 0 ? s * 0x8000 : s * 0x7fff`,
then `setInt16`. -/
def wavSampleToInt16 (x : ℚ) : Int :=
  let s := max (-1) (min 1 x)
  jsTruncInt (if s < 0 then s * 32768 else s * 32767)

/-- The worklet's `process` loop over a stream of input samples, started
from an accumulation buffer `pending`: each sample is appended to the
buffer; when the buffer holds exactly `chunkSize` samples the whole chunk
is converted with `pcm16OfSample` and posted as one frame, and the buffer
restarts empty.  Returns the final accumulation buffer and the frames
posted, in order. -/
def wkRun (chunkSize : Nat) : List ℚ → List ℚ → List ℚ × List (List Int)
  | pending, [] => (pending, [])
  | pending, x :: xs =>
    let p1 := pending ++ [x]
    if p1.length = chunkSize then
      let r := wkRun chunkSize [] xs
      (r.1, p1.map pcm16OfSample :: r.2)
    else
      wkRun chunkSize p1 xs

/-- Capture teardown (`stop` in `startMicPcm16Capture`): it cancels the
animation frame, detaches the port handler and disconnects the graph — it
never posts a frame, so whatever is left in the accumulation buffer is
discarded without a final flush. -/
def wkStopFlush : List ℚ → List (List Int) := fun _ => []

/-! ### Session traces and concrete fixture states -/

/-- Fold the controller over a list of `transcript_update` events
`(text, is_final)` (the controller's buffer fields do not depend on which
editor is active, so the active editor is irrelevant here). -/
def runUpdates (s : Ctrl) (evs : List (String × Bool)) : Ctrl :=
  evs.foldl
    (fun st e => (handleAaiEvent st none (AaiEvent.transcriptUpdate e.1 e.2)).1) s

/-- The specification's description of the finalized buffer: the ordered
concatenation of `trim(text) + " "` over the final events of the list. -/
def specFinalConcat : List (String × Bool) → String
  | [] => ""
  | (t, true) :: evs => jsTrim t ++ " " ++ specFinalConcat evs
  | (_, false) :: evs => specFinalConcat evs

/-- Controller state right after a successful `start()`: empty buffers,
running, client and subscription live, mic capturing. -/
def startedCtrl : Ctrl :=
  { finalized := "", current := "", running := true,
    mic := true, aai := true, unsubAai := true }

/-- An idle controller (as freshly constructed, or after `stop()`). -/
def idleCtrl : Ctrl :=
  { finalized := "", current := "", running := false,
    mic := false, aai := false, unsubAai := false }

/-! ### Helper lemmas -/

theorem runUpdates_append (s : Ctrl) (l1 l2 : List (String × Bool)) :
    runUpdates s (l1 ++ l2) = runUpdates (runUpdates s l1) l2 := by
  simp [runUpdates, List.foldl_append]

theorem handle_update_finalized (s : Ctrl) (ed : Option EditorSt) (t : String)
    (f : Bool) :
    (handleAaiEvent s ed (AaiEvent.transcriptUpdate t f)).1.finalized =
      s.finalized ++ (if f then jsTrim t ++ " " else "") := by
  cases f <;> simp [handleAaiEvent, String.append_assoc]

theorem handle_update_current (s : Ctrl) (ed : Option EditorSt) (t : String)
    (f : Bool) :
    (handleAaiEvent s ed (AaiEvent.transcriptUpdate t f)).1.current =
      if f then "" else t := by
  cases f <;> simp [handleAaiEvent]

theorem runUpdates_finalized (evs : List (String × Bool)) :
    ∀ s : Ctrl, (runUpdates s evs).finalized = s.finalized ++ specFinalConcat evs := by
  induction evs with
  | nil => intro s; simp [runUpdates, specFinalConcat]
  | cons e evs ih =>
    intro s
    obtain ⟨t, f⟩ := e
    cases f with
    | false =>
      have hstep : runUpdates s ((t, false) :: evs) =
          runUpdates ((handleAaiEvent s none (AaiEvent.transcriptUpdate t false)).1) evs := rfl
      rw [hstep, ih, handle_update_finalized]
      simp [specFinalConcat]
    | true =>
      have hstep : runUpdates s ((t, true) :: evs) =
          runUpdates ((handleAaiEvent s none (AaiEvent.transcriptUpdate t true)).1) evs := rfl
      rw [hstep, ih, handle_update_finalized]
      simp [specFinalConcat, String.append_assoc]

/-! ### C1 -/

/-- C1: processing any sequence of `transcript_update` events from the
post-`start()` state, `current` equals the most recent event's text
verbatim after every non-final event, `finalized` always equals the
ordered concatenation of `trim(text) + " "` over the final events, and
`current` is empty after every final event. -/
theorem c1_transcript_buffer_merge (evs pre : List (String × Bool)) (t : String) :
    (runUpdates startedCtrl (pre ++ [(t, false)])).current = t ∧
    (runUpdates startedCtrl evs).finalized = specFinalConcat evs ∧
    (runUpdates startedCtrl (pre ++ [(t, true)])).current = "" := by
  refine ⟨?_, ?_, ?_⟩
  · rw [runUpdates_append]
    have : runUpdates (runUpdates startedCtrl pre) [(t, false)] =
        (handleAaiEvent (runUpdates startedCtrl pre) none
          (AaiEvent.transcriptUpdate t false)).1 := rfl
    rw [this, handle_update_current]
    rfl
  · rw [runUpdates_finalized]
    simp [startedCtrl]
  · rw [runUpdates_append]
    have : runUpdates (runUpdates startedCtrl pre) [(t, true)] =
        (handleAaiEvent (runUpdates startedCtrl pre) none
          (AaiEvent.transcriptUpdate t true)).1 := rfl
    rw [this, handle_update_current]
    rfl

theorem stop_finalized (s : Ctrl) : (stop s).1.finalized = s.finalized := by
  cases hr : s.running <;> simp [stop, cleanup, hr]

/-! ### C8 -/

/-- C8: `finalized` never shrinks within a session — every event-handling
step (including the error branch's forced `stop()`) only appends to it,
`stop()` itself leaves it untouched, and it is reset to empty exactly at
session start. -/
theorem c8_finalized_append_only :
    (∀ (s : Ctrl) (ed : Option EditorSt) (ev : AaiEvent),
      ∃ t, (handleAaiEvent s ed ev).1.finalized = s.finalized ++ t) ∧
    (∀ s : Ctrl, (stop s).1.finalized = s.finalized) ∧
    (∀ (s : Ctrl) (k : String) (c m : Option String),
      s.running = false → jsTrim k ≠ "" → (start s k c m).1.finalized = "") := by
  refine ⟨?_, stop_finalized, ?_⟩
  · intro s ed ev
    cases ev with
    | transcriptUpdate t f => exact ⟨_, handle_update_finalized s ed t f⟩
    | sessionBegin => exact ⟨"", by simp [handleAaiEvent]⟩
    | sessionTerminated => exact ⟨"", by simp [handleAaiEvent]⟩
    | error m =>
      refine ⟨"", ?_⟩
      cases hinc : strIncludes (jsToLower m) "not authorized" <;>
        simp [handleAaiEvent, hinc, stop_finalized]
  · intro s k c m hr hk
    cases c with
    | some msg => simp [start, hr, hk, cleanup]
    | none => cases m <;> simp [start, hr, hk, stop, cleanup]

/-- C8 witness: a fresh `start()` from the idle state resets `finalized`. -/
theorem c8_witness : (start idleCtrl "key" none none).1.finalized = "" :=
  c8_finalized_append_only.2.2 idleCtrl "key" none none rfl (by decide)

/-! ### C3 -/

/-- C3: for an error event received while running, the controller forces a
hard stop (running becomes false) exactly when the lower-cased message
contains "not authorized"; any other error leaves the controller state
entirely unchanged (the session continues); in both cases the message is
reported to the user. -/
theorem c3_error_stop_policy (s : Ctrl) (ed : Option EditorSt) (m : String)
    (hr : s.running = true) :
    (strIncludes (jsToLower m) "not authorized" = true →
      (handleAaiEvent s ed (AaiEvent.error m)).1.running = false) ∧
    (strIncludes (jsToLower m) "not authorized" = false →
      (handleAaiEvent s ed (AaiEvent.error m)).1 = s) ∧
    Out.notice ("Transcription error: " ++ m) ∈ (handleAaiEvent s ed (AaiEvent.error m)).2.2 := by
  refine ⟨?_, ?_, ?_⟩
  · intro hinc; simp [handleAaiEvent, hinc, stop, cleanup, hr]
  · intro hinc; simp [handleAaiEvent, hinc]
  · cases hinc : strIncludes (jsToLower m) "not authorized" <;>
      simp [handleAaiEvent, hinc]

/-- C3 witness: "Not authorized: invalid key" stops the running session;
"temporary network blip" leaves it running and unchanged. -/
theorem c3_witness :
    (handleAaiEvent startedCtrl none (AaiEvent.error "Not authorized: invalid key")).1.running = false ∧
    (handleAaiEvent startedCtrl none (AaiEvent.error "temporary network blip")).1 = startedCtrl :=
  ⟨(c3_error_stop_policy startedCtrl none _ rfl).1 (by decide),
   (c3_error_stop_policy startedCtrl none _ rfl).2.1 (by decide)⟩

/-! ### C6 -/

/-- C6: `stop()` is idempotent and total: on a non-running controller it
is a no-op with no effects; a second call right after a `stop()` is a
no-op; and a `stop()` of a running controller clears the running flag and
the transient resource state (subscription, client, mic handle), emitting
the unsubscribe / connection-terminate / capture-stop effects for exactly
the resources that are still held, and resetting the status to empty. -/
theorem c6_stop_idempotent :
    (∀ s : Ctrl, stop ((stop s).1) = ((stop s).1, [])) ∧
    (∀ s : Ctrl, s.running = false → stop s = (s, [])) ∧
    (∀ s : Ctrl, s.running = true →
      (stop s).1.running = false ∧ (stop s).1.unsubAai = false ∧
      (stop s).1.aai = false ∧ (stop s).1.mic = false ∧
      (s.unsubAai = true → Out.unsubscribe ∈ (stop s).2) ∧
      (s.aai = true → Out.terminateConn ∈ (stop s).2) ∧
      (s.mic = true → Out.micStop ∈ (stop s).2) ∧
      Out.statusText "" ∈ (stop s).2) := by
  refine ⟨?_, ?_, ?_⟩
  · intro s; cases hr : s.running <;> simp [stop, cleanup, hr]
  · intro s hr; simp [stop, hr]
  · intro s hr
    refine ⟨by simp [stop, cleanup, hr], by simp [stop, cleanup, hr],
            by simp [stop, cleanup, hr], by simp [stop, cleanup, hr],
            ?_, ?_, ?_, ?_⟩
    · intro h; simp [stop, cleanup, hr, h]
    · intro h; simp [stop, cleanup, hr, h]
    · intro h; simp [stop, cleanup, hr, h]
    · simp [stop, cleanup, hr]

/-- C6 witness: stopping the running session releases the connection and
clears the running flag; a second `stop()` is a no-op. -/
theorem c6_witness :
    Out.terminateConn ∈ (stop startedCtrl).2 ∧
    (stop startedCtrl).1.running = false ∧
    stop ((stop startedCtrl).1) = ((stop startedCtrl).1, []) :=
  ⟨(c6_stop_idempotent.2.2 startedCtrl rfl).2.2.2.2.2.1 rfl,
   (c6_stop_idempotent.2.2 startedCtrl rfl).1,
   c6_stop_idempotent.1 startedCtrl⟩

/-! ### C7 -/

/-- C7: if, during `start()`, capture fails after the connection was
successfully established, the connection is terminated, the mic is not
held, running ends up false, and a capture-specific error is reported. -/
theorem c7_capture_failure (s : Ctrl) (k msg : String)
    (hr : s.running = false) (hk : jsTrim k ≠ "") :
    (start s k none (some msg)).1.running = false ∧
    (start s k none (some msg)).1.mic = false ∧
    Out.terminateConn ∈ (start s k none (some msg)).2 ∧
    Out.notice ("Microphone failed: " ++ msg) ∈ (start s k none (some msg)).2 := by
  refine ⟨?_, ?_, ?_, ?_⟩ <;> simp [start, hr, hk, stop, cleanup]

/-- C7 witness: connect succeeds, capture fails on the idle controller. -/
theorem c7_witness :
    (start idleCtrl "key" none (some "denied")).1.running = false ∧
    Out.terminateConn ∈ (start idleCtrl "key" none (some "denied")).2 :=
  ⟨(c7_capture_failure idleCtrl "key" "denied" rfl (by decide)).1,
   (c7_capture_failure idleCtrl "key" "denied" rfl (by decide)).2.2.1⟩

/-! ### C9 -/

/-- C9 fails on the code: a `start()` whose `connect()` rejects emits
`onRunningChange(true)` and ends with `running = false`, but emits no
matching `onRunningChange(false)` — the connect-failure branch assigns
`this.running = false` directly instead of going through `stop()` (the
capture-failure branch does call `stop()`), so this running-state
transition is never reported. -/
theorem c9_connect_failure_unreported :
    (start idleCtrl "key" (some "boom") none).1.running = false ∧
    Out.runningChange true ∈ (start idleCtrl "key" (some "boom") none).2 ∧
    Out.runningChange false ∉ (start idleCtrl "key" (some "boom") none).2 := by
  decide

/-! ### C10 -/

/-- C10: a final `transcript_update` whose text trims to empty performs no
document mutation at all (the active editor, document and cursor are
returned untouched, whether or not one is active), while `finalized`
still gains exactly one trailing space and `current` is cleared. -/
theorem c10_empty_final_frame (s : Ctrl) (ed : Option EditorSt) (t : String)
    (ht : jsTrim t = "") :
    (handleAaiEvent s ed (AaiEvent.transcriptUpdate t true)).2.1 = ed ∧
    (handleAaiEvent s ed (AaiEvent.transcriptUpdate t true)).1.finalized =
      s.finalized ++ " " ∧
    (handleAaiEvent s ed (AaiEvent.transcriptUpdate t true)).1.current = "" := by
  refine ⟨?_, ?_, ?_⟩
  · cases ed <;> simp [handleAaiEvent, insertFinal, ht]
  · simp [handleAaiEvent, ht]
  · simp [handleAaiEvent]

/-- C10 witness: a whitespace-only final with a document active leaves the
document and cursor untouched while `finalized` gains a space. -/
theorem c10_witness :
    (handleAaiEvent startedCtrl
        (some { lines := ["hello"], cursor := { line := 0, ch := 2 } })
        (AaiEvent.transcriptUpdate "   " true)).2.1 =
      some { lines := ["hello"], cursor := { line := 0, ch := 2 } } ∧
    (handleAaiEvent startedCtrl
        (some { lines := ["hello"], cursor := { line := 0, ch := 2 } })
        (AaiEvent.transcriptUpdate "   " true)).1.finalized = " " :=
  ⟨(c10_empty_final_frame startedCtrl _ "   " (by decide)).1,
   (c10_empty_final_frame startedCtrl _ "   " (by decide)).2.1⟩

/-! ### C2 -/

theorem splitLinesChars_ne_nil : ∀ l : List Char, splitLinesChars l ≠ [] := by
  intro l
  cases l with
  | nil => simp [splitLinesChars]
  | cons c cs =>
    simp only [splitLinesChars]
    cases hs : splitLinesChars cs with
    | nil => simp
    | cons h t => by_cases hc : c = '\n' <;> simp [hc]

theorem splitLinesChars_length_one :
    ∀ l : List Char, (splitLinesChars l).length = 1 → splitLinesChars l = [l] := by
  intro l
  induction l with
  | nil => intro _; rfl
  | cons c cs ih =>
    simp only [splitLinesChars]
    cases hs : splitLinesChars cs with
    | nil => exact absurd hs (splitLinesChars_ne_nil cs)
    | cons h t =>
      by_cases hc : c = '\n'
      · simp only [if_pos hc, List.length_cons]
        intro hlen
        omega
      · simp only [if_neg hc, List.length_cons]
        intro hlen
        have ht : t = [] := List.length_eq_zero.mp (by omega)
        subst ht
        have h2 : splitLinesChars cs = [cs] := ih (by rw [hs]; rfl)
        rw [hs] at h2
        injection h2 with h3 _
        subst h3
        rfl

theorem splitNl_length_one (s : String) (h : (splitNl s).length = 1) :
    splitNl s = [s] := by
  have hd : splitLinesChars s.data = [s.data] :=
    splitLinesChars_length_one s.data (by simpa [splitNl] using h)
  simp [splitNl, hd]

/-- `advanceCursor` lands exactly where the specification describes: for a
single-line insertion the column advances by the inserted length; for a
multi-line insertion the line advances by the number of extra lines and
the column becomes the last inserted line's length. -/
theorem advanceCursor_eq (cursor : EdPos) (text : String) :
    advanceCursor cursor text =
      if (splitNl text).length = 1 then
        { line := cursor.line, ch := cursor.ch + text.length }
      else
        { line := cursor.line + ((splitNl text).length - 1),
          ch := ((splitNl text).getLastD "").length } := by
  unfold advanceCursor
  by_cases h : (splitNl text).length = 1
  · rw [if_pos h, if_pos h, splitNl_length_one text h]
    rfl
  · rw [if_neg h, if_neg h]

/-- C2 (amended): on a final `transcript_update` whose text trims to a
nonempty string, the controller inserts into whichever document is active
at the moment the event arrives exactly
`(leading space unless the cursor is at column zero) ++ trimmed text ++ (trailing space)`
at the cursor, and the cursor advances by the inserted length for a
single-line insertion or to the last inserted line's length on the
correspondingly offset line for a multi-line insertion; `finalized` gains
the trimmed text either way; with no active document the insertion is
silently skipped, and a skipped insertion is never performed by a later
final event (the later document effect is exactly the later event's own
insertion). -/
theorem c2_final_insertion (s : Ctrl) (e : EditorSt) (t : String)
    (ht : jsTrim t ≠ "") :
    ((handleAaiEvent s (some e) (AaiEvent.transcriptUpdate t true)).2.1 =
      some { lines := replaceRange e.lines e.cursor
                ((if e.cursor.ch = 0 then "" else " ") ++ jsTrim t ++ " ")
             cursor :=
               if (splitNl ((if e.cursor.ch = 0 then "" else " ") ++ jsTrim t ++ " ")).length = 1 then
                 { line := e.cursor.line,
                   ch := e.cursor.ch +
                     ((if e.cursor.ch = 0 then "" else " ") ++ jsTrim t ++ " ").length }
               else
                 { line := e.cursor.line +
                     ((splitNl ((if e.cursor.ch = 0 then "" else " ") ++ jsTrim t ++ " ")).length - 1),
                   ch := ((splitNl ((if e.cursor.ch = 0 then "" else " ") ++ jsTrim t ++ " ")).getLastD "").length } }) ∧
    (handleAaiEvent s (some e) (AaiEvent.transcriptUpdate t true)).1.finalized =
      s.finalized ++ jsTrim t ++ " " ∧
    (handleAaiEvent s none (AaiEvent.transcriptUpdate t true)).2.1 = none ∧
    (handleAaiEvent s none (AaiEvent.transcriptUpdate t true)).1.finalized =
      s.finalized ++ jsTrim t ++ " " ∧
    (∀ (t2 : String) (e2 : EditorSt),
      (handleAaiEvent (handleAaiEvent s none (AaiEvent.transcriptUpdate t true)).1
          (some e2) (AaiEvent.transcriptUpdate t2 true)).2.1 =
        (handleAaiEvent s (some e2) (AaiEvent.transcriptUpdate t2 true)).2.1) := by
  refine ⟨?_, ?_, ?_, ?_, ?_⟩
  · simp only [handleAaiEvent, insertFinal, if_neg ht, advanceCursor_eq]
    simp
  · simp [handleAaiEvent]
  · simp [handleAaiEvent, insertFinal]
  · simp [handleAaiEvent]
  · intro t2 e2
    simp [handleAaiEvent]

/-- C2 counterexample: the claim as stated fails for a final event whose
text trims to empty — with a document active and the cursor at column 2,
the code leaves the document untouched, whereas the claimed insertion of
`" " ++ "" ++ " "` at the cursor would have changed it. -/
theorem c2_counterexample :
    (handleAaiEvent startedCtrl
        (some { lines := ["hello"], cursor := { line := 0, ch := 2 } })
        (AaiEvent.transcriptUpdate "   " true)).2.1 =
      some { lines := ["hello"], cursor := { line := 0, ch := 2 } } ∧
    replaceRange ["hello"] { line := 0, ch := 2 }
        ((if (2 : Nat) = 0 then "" else " ") ++ jsTrim "   " ++ " ") ≠ ["hello"] := by
  decide

/-- C2 witness: a concrete single-line insertion — final text `"world"`
into `["hello"]` at column 2 inserts `" world "` and moves the cursor to
column 9. -/
theorem c2_witness :
    (handleAaiEvent startedCtrl
        (some { lines := ["hello"], cursor := { line := 0, ch := 2 } })
        (AaiEvent.transcriptUpdate "world" true)).2.1 =
      some { lines := ["he world llo"], cursor := { line := 0, ch := 9 } } :=
  ((c2_final_insertion startedCtrl
      { lines := ["hello"], cursor := { line := 0, ch := 2 } } "world"
      (by decide)).1).trans (by decide)

/-! ### C4 -/

theorem clampSample_le_one (x : ℚ) : clampSample x ≤ 1 :=
  max_le (by norm_num) (min_le_left _ _)

theorem neg_one_le_clampSample (x : ℚ) : -1 ≤ clampSample x :=
  le_max_left _ _

theorem clampSample_of_mem (x : ℚ) (h1 : -1 ≤ x) (h2 : x ≤ 1) :
    clampSample x = x := by
  unfold clampSample
  rw [min_eq_right h2, max_eq_right h1]

theorem clampSample_of_ge (x : ℚ) (h : 1 ≤ x) : clampSample x = 1 := by
  unfold clampSample
  rw [min_eq_left h]
  exact max_eq_right (by norm_num)

theorem clampSample_of_le (x : ℚ) (h : x ≤ -1) : clampSample x = -1 := by
  unfold clampSample
  rw [min_eq_right (le_trans h (by norm_num)), max_eq_left h]

theorem clampSample_idem (x : ℚ) : clampSample (clampSample x) = clampSample x :=
  clampSample_of_mem _ (neg_one_le_clampSample x) (clampSample_le_one x)

/-- C4: the PCM16 conversion shared by the worklet processor and
`encodeWavFromMono` first clamps to `[-1, 1]` and then scales — negative
samples by 32768, non-negative ones by 32767: 1.5 maps to the maximum
positive int16 (32767), −1.5 to the minimum negative int16 (−32768), 0 to
0; clamping means any input ≥ 1 saturates at 32767 and any input ≤ −1 at
−32768, the output always lies in the int16 range, and the two source
sites implement exactly the same function. -/
theorem c4_pcm16_conversion :
    (pcm16OfSample (3/2) = 32767) ∧
    (pcm16OfSample (-(3/2)) = -32768) ∧
    (pcm16OfSample 0 = 0) ∧
    (∀ x : ℚ, pcm16OfSample x = pcm16OfSample (clampSample x)) ∧
    (∀ x : ℚ, -1 ≤ x → x < 0 → pcm16OfSample x = jsTruncInt (x * 32768)) ∧
    (∀ x : ℚ, 0 ≤ x → x ≤ 1 → pcm16OfSample x = jsTruncInt (x * 32767)) ∧
    (∀ x : ℚ, 1 ≤ x → pcm16OfSample x = 32767) ∧
    (∀ x : ℚ, x ≤ -1 → pcm16OfSample x = -32768) ∧
    (∀ x : ℚ, -32768 ≤ pcm16OfSample x ∧ pcm16OfSample x ≤ 32767) ∧
    (∀ x : ℚ, wavSampleToInt16 x = pcm16OfSample x) := by
  have hge : ∀ x : ℚ, 1 ≤ x → pcm16OfSample x = 32767 := by
    intro x h
    rw [pcm16OfSample, clampSample_of_ge x h]
    norm_num [jsTruncInt]
  have hle : ∀ x : ℚ, x ≤ -1 → pcm16OfSample x = -32768 := by
    intro x h
    rw [pcm16OfSample, clampSample_of_le x h]
    norm_num [jsTruncInt]
  have hneg : ∀ x : ℚ, -1 ≤ x → x < 0 → pcm16OfSample x = jsTruncInt (x * 32768) := by
    intro x h1 h2
    rw [pcm16OfSample, clampSample_of_mem x h1 (by linarith)]
    simp [h2]
  have hpos : ∀ x : ℚ, 0 ≤ x → x ≤ 1 → pcm16OfSample x = jsTruncInt (x * 32767) := by
    intro x h1 h2
    rw [pcm16OfSample, clampSample_of_mem x (by linarith) h2]
    simp [not_lt.mpr h1]
  refine ⟨hge _ (by norm_num), hle _ (by norm_num), ?_, ?_, hneg, hpos, hge, hle, ?_, ?_⟩
  · rw [hpos 0 le_rfl (by norm_num)]
    norm_num [jsTruncInt]
  · intro x
    rw [pcm16OfSample, pcm16OfSample, clampSample_idem]
  · intro x
    rw [pcm16OfSample]
    rcases lt_or_le (clampSample x) 0 with hc | hc
    · have hq1 : (-32768 : ℚ) ≤ clampSample x * 32768 := by
        nlinarith [neg_one_le_clampSample x]
      have hq2 : clampSample x * 32768 < 0 := by nlinarith
      rw [if_pos hc, jsTruncInt, if_pos hq2]
      constructor
      · have : ⌊-(clampSample x * 32768)⌋ ≤ ⌊(32768 : ℚ)⌋ :=
          Int.floor_le_floor (by linarith)
        rw [show ⌊(32768 : ℚ)⌋ = 32768 by norm_num] at this
        omega
      · have : 0 ≤ ⌊-(clampSample x * 32768)⌋ :=
          Int.floor_nonneg.mpr (by linarith)
        omega
    · have hq1 : (0 : ℚ) ≤ clampSample x * 32767 := by positivity
      have hq2 : clampSample x * 32767 ≤ 32767 := by
        nlinarith [clampSample_le_one x]
      rw [if_neg (not_lt.mpr hc), jsTruncInt, if_neg (not_lt.mpr hq1)]
      constructor
      · have : 0 ≤ ⌊clampSample x * 32767⌋ := Int.floor_nonneg.mpr hq1
        omega
      · have : ⌊clampSample x * 32767⌋ ≤ ⌊(32767 : ℚ)⌋ := Int.floor_le_floor hq2
        rw [show ⌊(32767 : ℚ)⌋ = 32767 by norm_num] at this
        omega
  · intro x
    rfl

/-- C4 witness: saturation at concrete out-of-range inputs. -/
theorem c4_witness : pcm16OfSample 2 = 32767 ∧ pcm16OfSample (-2) = -32768 :=
  ⟨c4_pcm16_conversion.2.2.2.2.2.2.1 2 (by decide),
   c4_pcm16_conversion.2.2.2.2.2.2.2.1 (-2) (by decide)⟩

/-! ### C5 -/

theorem wkRun_counts (cs : Nat) (hcs : 0 < cs) :
    ∀ (input pending : List ℚ), pending.length < cs →
      (wkRun cs pending input).2.length = (pending.length + input.length) / cs ∧
      (∀ f ∈ (wkRun cs pending input).2, f.length = cs) ∧
      (wkRun cs pending input).1.length = (pending.length + input.length) % cs := by
  intro input
  induction input with
  | nil =>
    intro pending hp
    refine ⟨?_, ?_, ?_⟩ <;>
      simp [wkRun, Nat.div_eq_of_lt hp, Nat.mod_eq_of_lt hp]
  | cons x xs ih =>
    intro pending hp
    have hlen : (pending ++ [x]).length = pending.length + 1 := by simp
    by_cases h1 : (pending ++ [x]).length = cs
    · have hx : pending.length + 1 = cs := by omega
      obtain ⟨ihl, ihf, ihp⟩ := ih [] (by simpa using hcs)
      have hrun : wkRun cs pending (x :: xs) =
          ((wkRun cs [] xs).1,
            (pending ++ [x]).map pcm16OfSample :: (wkRun cs [] xs).2) := by
        simp only [wkRun, h1, if_pos]
      rw [hrun]
      refine ⟨?_, ?_, ?_⟩
      · simp only [List.length_cons, ihl]
        simp only [List.length_nil, Nat.zero_add, List.length_cons]
        have : pending.length + (xs.length + 1) = xs.length + cs := by omega
        rw [this, Nat.add_div_right _ hcs]
      · intro f hf
        rcases List.mem_cons.mp hf with hf | hf
        · subst hf; simp [hlen, hx]
        · exact ihf f hf
      · simp only [ihp, List.length_nil, Nat.zero_add, List.length_cons]
        have : pending.length + (xs.length + 1) = xs.length + cs := by omega
        rw [this, Nat.add_mod_right]
    · have h2 : (pending ++ [x]).length < cs := by omega
      obtain ⟨ihl, ihf, ihp⟩ := ih (pending ++ [x]) h2
      have hrun : wkRun cs pending (x :: xs) = wkRun cs (pending ++ [x]) xs := by
        simp only [wkRun, h1, if_neg, ite_false]
      rw [hrun]
      refine ⟨?_, ihf, ?_⟩
      · rw [ihl]
        simp only [List.length_append, List.length_cons, List.length_nil]
        congr 1
        omega
      · rw [ihp]
        simp only [List.length_append, List.length_cons, List.length_nil]
        congr 1
        omega

/-- C5: running the worklet processor over any stream of input samples
with the configured frame size of 800 samples (= 16000 Hz × 50 ms / 1000),
a frame is emitted exactly each time the accumulation buffer fills: the
number of emitted frames is exactly `⌊n / 800⌋` for `n` input samples
(one frame per 50 ms of continuous input), every emitted frame holds
exactly 800 converted samples (no partial frame is ever emitted), the
leftover accumulation buffer holds `n % 800` samples, and teardown posts
no frame, discarding that leftover without a final flush. -/
theorem c5_frame_emission (input : List ℚ) :
    (wkRun DEFAULT_CHUNK_SIZE_SAMPLES [] input).2.length =
      input.length / DEFAULT_CHUNK_SIZE_SAMPLES ∧
    (wkRun DEFAULT_CHUNK_SIZE_SAMPLES [] input).2.all
      (fun f => f.length == DEFAULT_CHUNK_SIZE_SAMPLES) = true ∧
    (wkRun DEFAULT_CHUNK_SIZE_SAMPLES [] input).1.length =
      input.length % DEFAULT_CHUNK_SIZE_SAMPLES ∧
    wkStopFlush (wkRun DEFAULT_CHUNK_SIZE_SAMPLES [] input).1 = [] ∧
    DEFAULT_CHUNK_SIZE_SAMPLES = 16000 * 50 / 1000 := by
  obtain ⟨hl, hf, hp⟩ :=
    wkRun_counts DEFAULT_CHUNK_SIZE_SAMPLES (by norm_num [DEFAULT_CHUNK_SIZE_SAMPLES])
      input [] (by norm_num [DEFAULT_CHUNK_SIZE_SAMPLES])
  refine ⟨by simpa using hl, ?_, by simpa using hp, rfl, by norm_num [DEFAULT_CHUNK_SIZE_SAMPLES]⟩
  rw [List.all_eq_true]
  intro f hfm
  exact beq_iff_eq.mpr (hf f hfm)
